import Mathlib

/-
Verification development for the stock-data plugin (src/index.ts, src/types.ts).
The cache layer and the tool handlers are embedded as pure Lean functions;
machine numbers are modelled as rationals (the handlers use them only through
exact arithmetic in the properties proved here), timestamps as naturals
(milliseconds) or integers (seconds), and the JavaScript Map backing the cache
as an association list with Map-equivalent get/set/delete semantics.
-/

set_option maxHeartbeats 1000000

namespace StockData

/-- Cache entry as stored in the source map: a payload together with an
absolute expiry timestamp in milliseconds. -/
structure CacheEntry (α : Type) where
  data : α
  expiry : Nat
  deriving DecidableEq

/-- The in-memory cache, a JavaScript Map from string keys to entries,
modelled as an association list whose get/set/delete obey Map semantics. -/
abbrev Cache (α : Type) : Type := List (String × CacheEntry α)

/-- Map.get: the entry stored under a key, if any. -/
def cacheGet {α : Type} : Cache α → String → Option (CacheEntry α)
  | [], _ => none
  | (k, e) :: rest, key => if k = key then some e else cacheGet rest key

/-- Map.delete: remove any entry stored under a key. -/
def cacheErase {α : Type} : Cache α → String → Cache α
  | [], _ => []
  | (k, e) :: rest, key =>
      if k = key then cacheErase rest key else (k, e) :: cacheErase rest key

/-- Map.set: store an entry under a key, replacing any previous entry. -/
def cacheSet {α : Type} (c : Cache α) (key : String) (e : CacheEntry α) : Cache α :=
  (key, e) :: cacheErase c key

/-- CACHE_TTL_MS constant from the source: 15 seconds. -/
def CACHE_TTL_MS : Nat := 15000

/-- The getCached function: returns the stored payload when a live entry
exists; an entry strictly past its expiry is deleted and treated as absent.
The pair returned is (looked-up value, cache after the lazy eviction). -/
def getCached {α : Type} (now : Nat) (key : String) (c : Cache α) :
    Option α × Cache α :=
  match cacheGet c key with
  | none => (none, c)
  | some e => if now > e.expiry then (none, cacheErase c key) else (some e.data, c)

/-- The setCache function: store a payload under a key with expiry
now + CACHE_TTL_MS. -/
def setCache {α : Type} (now : Nat) (key : String) (data : α) (c : Cache α) :
    Cache α :=
  cacheSet c key { data := data, expiry := now + CACHE_TTL_MS }

/-- JSON.stringify for a record of string-valued parameters, serialised in
insertion order exactly as the JavaScript engine does for the plain
alphanumeric parameter names and values this program uses (no escaping is
needed for those). -/
def jsonStringify (params : List (String × String)) : String :=
  "\x7b" ++
    String.intercalate ","
      (params.map (fun p => "\"" ++ p.1 ++ "\":\"" ++ p.2 ++ "\"")) ++
  "\x7d"

/-- Cache key derivation from the source: path ++ "?" ++ JSON.stringify(params),
with the parameter record modelled as a list in insertion order. -/
def cacheKey (path : String) (params : List (String × String)) : String :=
  path ++ "?" ++ jsonStringify params

/-- Result of one invocation of the finnhub wrapper: the value returned or the
error propagated, whether the upstream fetch was performed, and the cache
afterwards. -/
structure FetchResult (α : Type) where
  result : Except String α
  calledUpstream : Bool
  cache : Cache α

/-- The fetch-and-store tail of the finnhub wrapper, reached when the
truthiness test on the cached lookup fails (entry absent, expired, or holding
a falsy payload): perform the upstream fetch, propagate a failure without
storing anything, and store a success under the key before returning it. -/
def finnhubFetch {α : Type} (now : Nat) (key : String)
    (upstream : Except String α) (c : Cache α) : FetchResult α :=
  match upstream with
  | Except.error e =>
      { result := Except.error e, calledUpstream := true, cache := c }
  | Except.ok d =>
      { result := Except.ok d, calledUpstream := true,
        cache := setCache now key d c }

/-- The finnhub wrapper: look the derived key up in the cache and serve the
stored payload only when the source's truthiness test on the looked-up value
passes (the source tests the payload itself, so a live entry holding a falsy
payload such as JSON null, 0, false or the empty string is not served);
otherwise perform the upstream fetch, whose outcome is passed in as the value
the network would produce. The truthiness predicate of the payload type is
passed in as truthy. -/
def finnhub {α : Type} (truthy : α → Bool) (path : String)
    (params : List (String × String)) (now : Nat) (upstream : Except String α)
    (c : Cache α) : FetchResult α :=
  let key := cacheKey path params
  match getCached now key c with
  | (some v, c1) =>
      if truthy v then
        { result := Except.ok v, calledUpstream := false, cache := c1 }
      else finnhubFetch now key upstream c1
  | (none, c1) => finnhubFetch now key upstream c1

/-- The payload a live entry would serve at a given time, ignoring the lazy
eviction side effect. -/
def servable {α : Type} (now : Nat) (key : String) (c : Cache α) : Option α :=
  (getCached now key c).1

-- Association-list lemmas for the Map operations.

theorem cacheGet_erase_self {α : Type} (c : Cache α) (key : String) :
    cacheGet (cacheErase c key) key = none := by
  induction c with
  | nil => rfl
  | cons p rest ih =>
      obtain ⟨k, e⟩ := p
      by_cases h : k = key
      · simp [cacheErase, h, ih]
      · simp [cacheErase, cacheGet, h, ih]

theorem cacheGet_erase_ne {α : Type} (c : Cache α) (key k' : String)
    (hne : k' ≠ key) : cacheGet (cacheErase c key) k' = cacheGet c k' := by
  induction c with
  | nil => rfl
  | cons p rest ih =>
      obtain ⟨k, e⟩ := p
      by_cases h : k = key
      · have hkk : ¬ key = k' := fun hk => hne hk.symm
        simp [cacheErase, cacheGet, h, hkk, ih]
      · simp [cacheErase, cacheGet, h, ih]

theorem cacheGet_set_self {α : Type} (c : Cache α) (key : String)
    (e : CacheEntry α) : cacheGet (cacheSet c key e) key = some e := by
  simp [cacheSet, cacheGet]

theorem cacheGet_set_ne {α : Type} (c : Cache α) (key k' : String)
    (e : CacheEntry α) (hne : k' ≠ key) :
    cacheGet (cacheSet c key e) k' = cacheGet c k' := by
  have h : key ≠ k' := fun h => hne h.symm
  simp [cacheSet, cacheGet, h, cacheGet_erase_ne c key k' hne]

theorem getCached_snd_get {α : Type} (now : Nat) (key k' : String) (c : Cache α)
    (hne : k' ≠ key) : cacheGet (getCached now key c).2 k' = cacheGet c k' := by
  unfold getCached
  cases hg : cacheGet c key with
  | none => rfl
  | some e =>
      by_cases h : now > e.expiry
      · simp [h, cacheGet_erase_ne c key k' hne]
      · simp [h]

theorem finnhub_cache_other_key {α : Type} (truthy : α → Bool) (path : String)
    (params : List (String × String)) (now : Nat) (upstream : Except String α)
    (c : Cache α) (k' : String) (hne : k' ≠ cacheKey path params) :
    cacheGet (finnhub truthy path params now upstream c).cache k' =
      cacheGet c k' := by
  cases hgc : cacheGet c (cacheKey path params) with
  | none =>
      cases upstream with
      | error e => simp [finnhub, finnhubFetch, getCached, hgc]
      | ok d =>
          simp [finnhub, finnhubFetch, getCached, hgc, setCache,
            cacheGet_set_ne c (cacheKey path params) k' _ hne]
  | some e =>
      by_cases h : now > e.expiry
      · cases upstream with
        | error e2 =>
            simp [finnhub, finnhubFetch, getCached, hgc, h,
              cacheGet_erase_ne c (cacheKey path params) k' hne]
        | ok d =>
            simp [finnhub, finnhubFetch, getCached, hgc, h, setCache,
              cacheGet_set_ne _ (cacheKey path params) k' _ hne,
              cacheGet_erase_ne c (cacheKey path params) k' hne]
      · by_cases ht : truthy e.data
        · simp [finnhub, getCached, hgc, h, ht]
        · cases upstream with
          | error e2 =>
              simp [finnhub, finnhubFetch, getCached, hgc, h, ht]
          | ok d =>
              simp [finnhub, finnhubFetch, getCached, hgc, h, ht, setCache,
                cacheGet_set_ne c (cacheKey path params) k' _ hne]

theorem finnhub_miss_calls {α : Type} (truthy : α → Bool) (path : String)
    (params : List (String × String)) (t : Nat) (u : Except String α)
    (c : Cache α) (h : cacheGet c (cacheKey path params) = none) :
    (finnhub truthy path params t u c).calledUpstream = true := by
  cases u <;> simp [finnhub, finnhubFetch, getCached, h]

/-- C1: the cache-key derivation serialises the parameter record in insertion
order, so the same parameter set supplied in a different order yields a
different key and the second call misses the cache and fetches upstream
again, contradicting the order-independence the specification requires. -/
theorem cacheKey_insertion_order_dependent :
    cacheKey "/quote" [("a", "1"), ("b", "2")] ≠
      cacheKey "/quote" [("b", "2"), ("a", "1")] ∧
    (finnhub (fun n => n != 0) "/quote" [("b", "2"), ("a", "1")] 0
      (Except.ok 2)
      (finnhub (fun n => n != 0) "/quote" [("a", "1"), ("b", "2")] 0
        (Except.ok 1) ([] : Cache Nat)).cache).calledUpstream = true ∧
    (finnhub (fun n => n != 0) "/quote" [("b", "2"), ("a", "1")] 0
      (Except.ok 2)
      (finnhub (fun n => n != 0) "/quote" [("a", "1"), ("b", "2")] 0
        (Except.ok 1) ([] : Cache Nat)).cache).result = Except.ok 2 := by
  refine ⟨by decide, by decide, rfl⟩

/-- C2 counterexample: a falsy payload (the number 0) stored by a successful
upstream call is never served: the truthiness test on the looked-up value
fails, so a second call within the TTL invokes the upstream again even though
the entry sits live in the store. -/
theorem finnhub_falsy_payload_refetched :
    (finnhub (fun n => n != 0) "/quote" [("symbol", "AAPL")] 1000
      (Except.ok (0 : ℚ)) ([] : Cache ℚ)).result = Except.ok 0 ∧
    cacheGet (finnhub (fun n => n != 0) "/quote" [("symbol", "AAPL")] 1000
      (Except.ok (0 : ℚ)) ([] : Cache ℚ)).cache
      (cacheKey "/quote" [("symbol", "AAPL")]) =
      some { data := 0, expiry := 1000 + CACHE_TTL_MS } ∧
    (1005 : Nat) ≤ 1000 + CACHE_TTL_MS ∧
    (finnhub (fun n => n != 0) "/quote" [("symbol", "AAPL")] 1005
      (Except.ok (0 : ℚ))
      (finnhub (fun n => n != 0) "/quote" [("symbol", "AAPL")] 1000
        (Except.ok (0 : ℚ))
        ([] : Cache ℚ)).cache).calledUpstream = true := by
  refine ⟨rfl, by decide, by decide, rfl⟩

/-- C2 (amended): once a miss with a successful upstream call has stored a
payload that passes the truthiness test at time t0, a second call for the
same path and parameters at any time up to t0 + CACHE_TTL_MS returns the
stored payload itself and does not perform the upstream fetch, whatever that
fetch would have produced; a stored falsy payload, by contrast, is re-fetched
(see the counterexample). -/
theorem finnhub_second_call_within_ttl {α : Type} (truthy : α → Bool)
    (c : Cache α) (path : String) (params : List (String × String))
    (t0 t1 : Nat) (d : α) (u : Except String α)
    (hmiss : (getCached t0 (cacheKey path params) c).1 = none)
    (hfresh : t1 ≤ t0 + CACHE_TTL_MS) (htr : truthy d = true) :
    (finnhub truthy path params t0 (Except.ok d) c).result = Except.ok d ∧
    (finnhub truthy path params t0 (Except.ok d) c).calledUpstream = true ∧
    finnhub truthy path params t1 u
        (finnhub truthy path params t0 (Except.ok d) c).cache =
      { result := Except.ok d, calledUpstream := false,
        cache := (finnhub truthy path params t0 (Except.ok d) c).cache } := by
  have hfr : ¬ (t0 + CACHE_TTL_MS < t1) := Nat.not_lt.mpr hfresh
  cases hgc : cacheGet c (cacheKey path params) with
  | none =>
      refine ⟨?_, ?_, ?_⟩ <;>
        simp [finnhub, finnhubFetch, getCached, hgc, setCache, cacheSet,
          cacheGet, hfr, htr]
  | some e =>
      by_cases h : t0 > e.expiry
      · refine ⟨?_, ?_, ?_⟩ <;>
          simp [finnhub, finnhubFetch, getCached, hgc, h, setCache, cacheSet,
            cacheGet, hfr, htr]
      · exfalso
        simp [getCached, hgc, h] at hmiss

/-- C2 witness: concrete run on the empty cache with the quote endpoint and a
truthy payload. -/
theorem finnhub_second_call_within_ttl_witness :
    (getCached 1000 (cacheKey "/quote" [("symbol", "AAPL")])
      ([] : Cache Nat)).1 = none ∧
    (1005 : Nat) ≤ 1000 + CACHE_TTL_MS ∧
    ((fun n : Nat => n != 0) 7) = true ∧
    ((finnhub (fun n => n != 0) "/quote" [("symbol", "AAPL")] 1000
        (Except.ok 7) ([] : Cache Nat)).result = Except.ok 7 ∧
      (finnhub (fun n => n != 0) "/quote" [("symbol", "AAPL")] 1000
        (Except.ok 7) ([] : Cache Nat)).calledUpstream = true ∧
      finnhub (fun n => n != 0) "/quote" [("symbol", "AAPL")] 1005
          (Except.error "down")
          (finnhub (fun n => n != 0) "/quote" [("symbol", "AAPL")] 1000
            (Except.ok 7) ([] : Cache Nat)).cache =
        { result := Except.ok 7, calledUpstream := false,
          cache := (finnhub (fun n => n != 0) "/quote" [("symbol", "AAPL")]
            1000 (Except.ok 7) ([] : Cache Nat)).cache }) :=
  ⟨rfl, by decide, rfl,
    finnhub_second_call_within_ttl (fun n => n != 0) [] "/quote"
      [("symbol", "AAPL")] 1000 1005 7 (Except.error "down") rfl (by decide)
      rfl⟩

/-- C3 counterexample: with an already-expired entry present under the key, a
failing upstream call does change the cache store (the expired entry is
lazily evicted during the lookup), refuting the literal claim that the store
is left unchanged. -/
theorem finnhub_failure_cache_changed :
    (finnhub (fun n => n != 0) "/quote" [] 20000
      (Except.error "Finnhub 500: boom")
      ([(cacheKey "/quote" [], { data := (42 : Nat), expiry := 5 })])).result =
        Except.error "Finnhub 500: boom" ∧
    (finnhub (fun n => n != 0) "/quote" [] 20000
      (Except.error "Finnhub 500: boom")
      ([(cacheKey "/quote" [], { data := (42 : Nat), expiry := 5 })])).cache ≠
      [(cacheKey "/quote" [], { data := (42 : Nat), expiry := 5 })] := by
  refine ⟨rfl, by decide⟩

/-- C3 (amended): a failing upstream call inserts nothing into the cache: the
key afterwards has no entry at all, every other key is exactly as before (the
only possible change being the lazy eviction of the already-expired entry
found during the lookup), and an immediate retry at any time performs the
upstream call again. -/
theorem finnhub_failure_no_entry_inserted {α : Type} (truthy : α → Bool)
    (c : Cache α) (path : String) (params : List (String × String))
    (now t' : Nat) (msg k' : String) (u : Except String α)
    (hmiss : (getCached now (cacheKey path params) c).1 = none)
    (hk' : k' ≠ cacheKey path params) :
    (finnhub truthy path params now (Except.error msg) c).result =
      Except.error msg ∧
    (finnhub truthy path params now (Except.error msg) c).calledUpstream =
      true ∧
    cacheGet (finnhub truthy path params now (Except.error msg) c).cache
      (cacheKey path params) = none ∧
    cacheGet (finnhub truthy path params now (Except.error msg) c).cache k' =
      cacheGet c k' ∧
    (finnhub truthy path params t' u
      (finnhub truthy path params now
        (Except.error msg) c).cache).calledUpstream = true := by
  have hkeynone :
      cacheGet (finnhub truthy path params now (Except.error msg) c).cache
        (cacheKey path params) = none := by
    cases hgc : cacheGet c (cacheKey path params) with
    | none => simp [finnhub, finnhubFetch, getCached, hgc]
    | some e =>
        by_cases h : now > e.expiry
        · simp [finnhub, finnhubFetch, getCached, hgc, h, cacheGet_erase_self]
        · exfalso
          simp [getCached, hgc, h] at hmiss
  refine ⟨?_, ?_, hkeynone, ?_, ?_⟩
  · cases hgc : cacheGet c (cacheKey path params) with
    | none => simp [finnhub, finnhubFetch, getCached, hgc]
    | some e =>
        by_cases h : now > e.expiry
        · simp [finnhub, finnhubFetch, getCached, hgc, h]
        · exfalso
          simp [getCached, hgc, h] at hmiss
  · cases hgc : cacheGet c (cacheKey path params) with
    | none => simp [finnhub, finnhubFetch, getCached, hgc]
    | some e =>
        by_cases h : now > e.expiry
        · simp [finnhub, finnhubFetch, getCached, hgc, h]
        · exfalso
          simp [getCached, hgc, h] at hmiss
  · exact finnhub_cache_other_key truthy path params now (Except.error msg) c
      k' hk'
  · exact finnhub_miss_calls truthy path params t' u _ hkeynone

/-- C3 witness: concrete failing call on the empty cache. -/
theorem finnhub_failure_no_entry_inserted_witness :
    (getCached 0 (cacheKey "/search" [("q", "apple")]) ([] : Cache Nat)).1 =
      none ∧
    ("other" : String) ≠ cacheKey "/search" [("q", "apple")] ∧
    ((finnhub (fun n => n != 0) "/search" [("q", "apple")] 0
        (Except.error "Finnhub 429: limit")
        ([] : Cache Nat)).result = Except.error "Finnhub 429: limit" ∧
      (finnhub (fun n => n != 0) "/search" [("q", "apple")] 0
        (Except.error "Finnhub 429: limit")
        ([] : Cache Nat)).calledUpstream = true ∧
      cacheGet (finnhub (fun n => n != 0) "/search" [("q", "apple")] 0
        (Except.error "Finnhub 429: limit") ([] : Cache Nat)).cache
        (cacheKey "/search" [("q", "apple")]) = none ∧
      cacheGet (finnhub (fun n => n != 0) "/search" [("q", "apple")] 0
        (Except.error "Finnhub 429: limit") ([] : Cache Nat)).cache "other" =
        cacheGet ([] : Cache Nat) "other" ∧
      (finnhub (fun n => n != 0) "/search" [("q", "apple")] 9 (Except.ok 3)
        (finnhub (fun n => n != 0) "/search" [("q", "apple")] 0
          (Except.error "Finnhub 429: limit")
          ([] : Cache Nat)).cache).calledUpstream = true) :=
  ⟨rfl, by decide,
    finnhub_failure_no_entry_inserted (fun n => n != 0) [] "/search"
      [("q", "apple")] 0 9 "Finnhub 429: limit" "other" (Except.ok 3) rfl
      (by decide)⟩

/-- C4: an entry strictly past its expiry is never returned: the lookup
reports it absent and removes it from the store, and one step of the cache at
any later time can make the key servable again only through a fetch for that
very key whose upstream call succeeded with the newly served payload. -/
theorem expired_entry_absent_until_fresh_fetch {α : Type} (truthy : α → Bool)
    (c : Cache α) (key : String) (e : CacheEntry α) (now : Nat)
    (hget : cacheGet c key = some e) (hexp : now > e.expiry) :
    getCached now key c = (none, cacheErase c key) ∧
    cacheGet (cacheErase c key) key = none ∧
    (∀ t path params (upstream : Except String α) v, now ≤ t →
      servable t key (finnhub truthy path params t upstream c).cache =
        some v →
      cacheKey path params = key ∧ upstream = Except.ok v ∧
        (finnhub truthy path params t upstream c).calledUpstream = true) := by
  refine ⟨by simp [getCached, hget, hexp], cacheGet_erase_self c key, ?_⟩
  intro t path params upstream v ht hs
  have hexpt : e.expiry < t := lt_of_lt_of_le hexp ht
  by_cases hk : cacheKey path params = key
  · subst hk
    cases upstream with
    | error msg =>
        exfalso
        simp [servable, finnhub, finnhubFetch, getCached, hget, hexpt,
          cacheGet_erase_self] at hs
    | ok d =>
        have hnl : ¬ (t + CACHE_TTL_MS < t) := by omega
        have hdv : d = v := by
          simpa [servable, finnhub, finnhubFetch, getCached, hget, hexpt,
            setCache, cacheSet, cacheGet, hnl] using hs
        subst hdv
        refine ⟨rfl, rfl, ?_⟩
        simp [finnhub, finnhubFetch, getCached, hget, hexpt]
  · exfalso
    have hother :
        cacheGet (finnhub truthy path params t upstream c).cache key =
          cacheGet c key :=
      finnhub_cache_other_key truthy path params t upstream c key fun h =>
        hk h.symm
    simp [servable, getCached, hother, hget, hexpt] at hs

/-- C4 witness: concrete expired entry, evicted and then refreshed only by a
successful fetch for its own key. -/
theorem expired_entry_absent_until_fresh_fetch_witness :
    cacheGet ([(cacheKey "/x" [], { data := 5, expiry := 10 })] : Cache Nat)
      (cacheKey "/x" []) = some { data := 5, expiry := 10 } ∧
    (11 : Nat) > (10 : Nat) ∧
    getCached 11 (cacheKey "/x" [])
      ([(cacheKey "/x" [], { data := 5, expiry := 10 })] : Cache Nat) =
      (none, cacheErase [(cacheKey "/x" [], { data := 5, expiry := 10 })]
        (cacheKey "/x" [])) ∧
    cacheGet (cacheErase
      ([(cacheKey "/x" [], { data := 5, expiry := 10 })] : Cache Nat)
      (cacheKey "/x" [])) (cacheKey "/x" []) = none ∧
    (cacheKey "/x" [] = cacheKey "/x" [] ∧
      (Except.ok 7 : Except String Nat) = Except.ok 7 ∧
      (finnhub (fun n => n != 0) "/x" [] 11 (Except.ok 7)
        ([(cacheKey "/x" [], { data := 5, expiry := 10 })] :
          Cache Nat)).calledUpstream = true) :=
  ⟨by decide, by decide,
    (expired_entry_absent_until_fresh_fetch (fun n => n != 0)
      ([(cacheKey "/x" [], { data := 5, expiry := 10 })] : Cache Nat)
      (cacheKey "/x" []) { data := 5, expiry := 10 } 11
      (by decide) (by decide)).1,
    (expired_entry_absent_until_fresh_fetch (fun n => n != 0)
      ([(cacheKey "/x" [], { data := 5, expiry := 10 })] : Cache Nat)
      (cacheKey "/x" []) { data := 5, expiry := 10 } 11
      (by decide) (by decide)).2.1,
    (expired_entry_absent_until_fresh_fetch (fun n => n != 0)
      ([(cacheKey "/x" [], { data := 5, expiry := 10 })] : Cache Nat)
      (cacheKey "/x" []) { data := 5, expiry := 10 } 11
      (by decide) (by decide)).2.2 11 "/x" [] (Except.ok 7) 7 (le_refl 11)
      (by decide)⟩

-- Formatting helpers from the source. JavaScript numbers are modelled as
-- rationals; the locale renderers below reproduce the en-US output shape
-- (grouping, fixed fraction digits, half-away-from-zero rounding) on exact
-- rationals. None of the claims depends on the corner cases where IEEE-754
-- doubles would deviate from exact arithmetic.

/-- Rounding half away from zero, the Intl default rounding mode used by
toLocaleString and toFixed. -/
def roundAway (q : ℚ) : Int :=
  if q ≥ 0 then Int.floor (q + 1/2) else - Int.floor (-q + 1/2)

/-- Math.round: floor of x + 1/2. -/
def mathRound (q : ℚ) : Int := Int.floor (q + 1/2)

/-- Two-digit zero padding. -/
def pad2 (n : Nat) : String := if n < 10 then "0" ++ toString n else toString n

/-- Three-digit zero padding. -/
def pad3 (n : Nat) : String :=
  if n < 10 then "00" ++ toString n
  else if n < 100 then "0" ++ toString n
  else toString n

/-- Comma insertion every three digits, on a reversed digit list. -/
def groupChars : List Char → List Char
  | a :: b :: c :: d :: rest => a :: b :: c :: ',' :: groupChars (d :: rest)
  | l => l

/-- Decimal rendering of a natural number with en-US thousands grouping. -/
def groupDigits (n : Nat) : String :=
  String.mk (groupChars (toString n).data.reverse).reverse

/-- The formatCurrency helper: toLocaleString("en-US") with exactly two
fraction digits. -/
def formatCurrency (n : ℚ) : String :=
  let cents := roundAway (n * 100)
  let sign := if cents < 0 then "-" else ""
  sign ++ groupDigits (cents.natAbs / 100) ++ "." ++ pad2 (cents.natAbs % 100)

/-- Number.toFixed(2). -/
def toFixed2 (n : ℚ) : String :=
  let cents := roundAway (n * 100)
  let sign := if cents < 0 then "-" else ""
  sign ++ toString (cents.natAbs / 100) ++ "." ++ pad2 (cents.natAbs % 100)

/-- Number.toFixed(3). -/
def toFixed3 (n : ℚ) : String :=
  let mils := roundAway (n * 1000)
  let sign := if mils < 0 then "-" else ""
  sign ++ toString (mils.natAbs / 1000) ++ "." ++ pad3 (mils.natAbs % 1000)

/-- Removal of trailing zero characters from a fraction part. -/
def trimTrailingZeros (s : String) : String :=
  String.mk (s.data.reverse.dropWhile (fun ch => ch = '0')).reverse

/-- Default argument-free toLocaleString: grouping with zero to three
fraction digits. -/
def jsLocaleNumber (n : ℚ) : String :=
  let mils := roundAway (n * 1000)
  let sign := if mils < 0 then "-" else ""
  let ip := mils.natAbs / 1000
  let fp := mils.natAbs % 1000
  sign ++ groupDigits ip ++
    (if fp = 0 then "" else "." ++ trimTrailingZeros (pad3 fp))

/-- The formatLargeNumber helper: T/B/M suffixes above the respective
thresholds, plain locale rendering below one million. -/
def formatLargeNumber (n : ℚ) : String :=
  if n ≥ 1000000000000 then toFixed2 (n / 1000000000000) ++ "T"
  else if n ≥ 1000000000 then toFixed2 (n / 1000000000) ++ "B"
  else if n ≥ 1000000 then toFixed2 (n / 1000000) ++ "M"
  else jsLocaleNumber n

/-- Template-literal rendering of a number; the handlers interpolate only
values that are integers in every claim-relevant case, where this matches the
JavaScript output exactly. -/
def qToString (q : ℚ) : String :=
  if q.den = 1 then toString q.num else toString q.num ++ "/" ++ toString q.den

-- Calendar rendering for candle and news timestamps, modelling the en-US
-- locale in UTC. The civil-date computation is the standard
-- days-to-Gregorian conversion.

/-- Gregorian date (year, month, day) from a count of days since 1970-01-01.
-/
def civilFromDays (z0 : Int) : Int × Int × Int :=
  let z := z0 + 719468
  let era := (if z ≥ 0 then z else z - 146096) / 146097
  let doe := z - era * 146097
  let yoe := (doe - doe / 1460 + doe / 36524 - doe / 146096) / 365
  let y := yoe + era * 400
  let doy := doe - (365 * yoe + yoe / 4 - yoe / 100)
  let mp := (5 * doy + 2) / 153
  let d := doy - (153 * mp + 2) / 5 + 1
  let m := mp + (if mp < 10 then 3 else -9)
  (y + (if m ≤ 2 then 1 else 0), m, d)

/-- Abbreviated en-US month name. -/
def monthShort (m : Int) : String :=
  if m = 1 then "Jan" else if m = 2 then "Feb" else if m = 3 then "Mar"
  else if m = 4 then "Apr" else if m = 5 then "May" else if m = 6 then "Jun"
  else if m = 7 then "Jul" else if m = 8 then "Aug" else if m = 9 then "Sep"
  else if m = 10 then "Oct" else if m = 11 then "Nov" else "Dec"

/-- toLocaleDateString("en-US", month short, day numeric) on a timestamp in
seconds. -/
def formatDate (secs : Int) : String :=
  let ymd := civilFromDays (secs / 86400)
  monthShort ymd.2.1 ++ " " ++ toString ymd.2.2

/-- toLocaleDateString("en-US", month short, day numeric, hour numeric,
minute 2-digit) on a timestamp in seconds. -/
def formatDateTime (secs : Int) : String :=
  let ymd := civilFromDays (secs / 86400)
  let rem := (secs % 86400).toNat
  let h24 := rem / 3600
  let mins := (rem % 3600) / 60
  let h12 := if h24 % 12 = 0 then 12 else h24 % 12
  let ampm := if h24 < 12 then "AM" else "PM"
  monthShort ymd.2.1 ++ " " ++ toString ymd.2.2 ++ ", " ++
    toString h12 ++ ":" ++ pad2 mins ++ " " ++ ampm

-- Tool results and configuration, from src/types.ts and the activate scope.

/-- ToolResult with a single text block, as produced by the ok/err helpers. -/
structure ToolResult where
  text : String
  isError : Bool
  deriving DecidableEq

/-- The ok helper. -/
def ok (text : String) : ToolResult := { text := text, isError := false }

/-- The err helper. -/
def err (text : String) : ToolResult := { text := text, isError := true }

/-- Error message thrown by getKey when the API key setting is missing. -/
def configMsg : String :=
  "Finnhub API key not configured. Set it in plugin settings."

/-- The getKey function: reads the finnhubApiKey setting and throws the
configuration error when it is absent or empty (falsy). -/
def getKey (setting : Option String) : Except String String :=
  match setting with
  | none => Except.error configMsg
  | some k => if k = "" then Except.error configMsg else Except.ok k

/-- String.prototype.toUpperCase, character by character; the tickers and
queries this program upper-cases are ASCII. -/
def jsToUpper (s : String) : String := String.mk (s.data.map Char.toUpper)

-- Upstream payload shapes from src/index.ts. The handlers below are the
-- tool handlers from the activate registration, as pure functions of the
-- plugin setting, their arguments and the outcome each finnhub call would
-- deliver (from cache or network). The Nat in every result counts the
-- invocations of the finnhub wrapper the handler performs, an upper bound
-- on (and, with a cold cache, equal to) the number of network calls.

/-- FinnhubQuote payload. -/
structure FinnhubQuote where
  c : ℚ
  d : ℚ
  dp : ℚ
  h : ℚ
  l : ℚ
  o : ℚ
  pc : ℚ
  t : ℚ
  deriving DecidableEq

/-- One element of FinnhubSearchResult.result. -/
structure SearchItem where
  description : String
  displaySymbol : String
  symbol : String
  type : String
  deriving DecidableEq

/-- FinnhubProfile payload. -/
structure FinnhubProfile where
  country : String
  currency : String
  exchange : String
  finnhubIndustry : String
  ipo : String
  logo : String
  marketCapitalization : ℚ
  name : String
  phone : String
  shareOutstanding : ℚ
  ticker : String
  weburl : String
  deriving DecidableEq

/-- FinnhubCandles payload. -/
structure FinnhubCandles where
  c : List ℚ
  h : List ℚ
  l : List ℚ
  o : List ℚ
  s : String
  t : List Int
  v : List ℚ
  deriving DecidableEq

/-- FinnhubNewsItem payload. -/
structure NewsItem where
  category : String
  datetime : Int
  headline : String
  id : Int
  image : String
  related : String
  source : String
  summary : String
  url : String
  deriving DecidableEq

/-- Empty-string fallback used for several profile fields. -/
def orNA (s : String) : String := if s = "" then "N/A" else s

-- ── Quote ──

/-- The stock_quote tool handler. -/
def stock_quote (setting : Option String) (symbolArg : String)
    (upstream : Except String FinnhubQuote) : ToolResult × Nat :=
  let symbol := jsToUpper symbolArg
  match getKey setting with
  | Except.error m => (err m, 0)
  | Except.ok _ =>
      match upstream with
      | Except.error m => (err m, 1)
      | Except.ok quote =>
          if quote.c = 0 ∧ quote.o = 0 then
            (err ("No data found for symbol \"" ++ symbol ++
              "\". Check the ticker and try again."), 1)
          else
            let direction := if quote.d ≥ 0 then "+" else ""
            (ok (String.intercalate "\n"
              [symbol ++ ": $" ++ formatCurrency quote.c,
               "Change: " ++ direction ++ "$" ++ formatCurrency quote.d ++
                 " (" ++ direction ++ toFixed2 quote.dp ++ "%)",
               "Open: $" ++ formatCurrency quote.o ++ "  |  Prev Close: $" ++
                 formatCurrency quote.pc,
               "High: $" ++ formatCurrency quote.h ++ "  |  Low: $" ++
                 formatCurrency quote.l]), 1)

-- ── Multi-Quote ──

/-- Per-symbol fetch inside the stock_quotes map callback: getKey is invoked
inside the per-symbol try block, so a missing key fails the item, not the
batch. -/
def quoteFetch (setting : Option String)
    (upstream : String → Except String FinnhubQuote) (symbol : String) :
    Except String FinnhubQuote :=
  match getKey setting with
  | Except.error m => Except.error m
  | Except.ok _ => upstream symbol

/-- Per-symbol output line of stock_quotes, with the catch branch rendered as
the placeholder line. -/
def quoteLine (symbol : String) (r : Except String FinnhubQuote) : String :=
  match r with
  | Except.error _ => symbol ++ ": Error fetching"
  | Except.ok q =>
      if q.c = 0 ∧ q.o = 0 then symbol ++ ": No data"
      else
        symbol ++ ": $" ++ formatCurrency q.c ++ " (" ++
          (if q.d ≥ 0 then "+" else "") ++ toFixed2 q.dp ++ "%)"

/-- The input-ordered array Promise.all resolves to in stock_quotes: one
line per upper-cased input symbol. -/
def quotesLines (setting : Option String) (symbols : List String)
    (upstream : String → Except String FinnhubQuote) : List String :=
  (symbols.map jsToUpper).map
    (fun s => quoteLine s (quoteFetch setting upstream s))

/-- The stock_quotes tool handler: Promise.all over the per-symbol fetches
joins into the input-ordered array of lines. -/
def stock_quotes (setting : Option String) (symbols : List String)
    (upstream : String → Except String FinnhubQuote) : ToolResult × Nat :=
  (ok (String.intercalate "\n" (quotesLines setting symbols upstream)),
    match getKey setting with
    | Except.ok _ => symbols.length
    | Except.error _ => 0)

-- ── Symbol Search ──

/-- Security types kept by the search filter. -/
def searchTypes : List String := ["Common Stock", "ETP", "ETF", "REIT", "ADR"]

/-- The stock_search tool handler. -/
def stock_search (setting : Option String) (query : String)
    (upstream : Except String (List SearchItem)) : ToolResult × Nat :=
  match getKey setting with
  | Except.error m => (err m, 0)
  | Except.ok _ =>
      match upstream with
      | Except.error m => (err m, 1)
      | Except.ok results =>
          if results.length = 0 then
            (err ("No results for \"" ++ query ++ "\"."), 1)
          else
            let filtered := (results.filter
              (fun r => searchTypes.contains r.type || r.type == "")).take 10
            if filtered.length = 0 then
              (ok ("Found results but none were common stocks/ETFs. Raw results:\n" ++
                String.intercalate "\n" ((results.take 5).map (fun r =>
                  r.symbol ++ " - " ++ r.description ++ " (" ++ r.type ++ ")"))),
               1)
            else
              (ok ("Search results for \"" ++ query ++ "\":\n" ++
                String.intercalate "\n" (filtered.map (fun r =>
                  r.symbol ++ " - " ++ r.description ++
                  (if r.type ≠ "" then " (" ++ r.type ++ ")" else "")))), 1)

-- ── Company Profile ──

/-- The stock_company_profile tool handler. -/
def stock_company_profile (setting : Option String) (symbolArg : String)
    (upstream : Except String FinnhubProfile) : ToolResult × Nat :=
  let symbol := jsToUpper symbolArg
  match getKey setting with
  | Except.error m => (err m, 0)
  | Except.ok _ =>
      match upstream with
      | Except.error m => (err m, 1)
      | Except.ok profile =>
          if profile.name = "" then
            (err ("No company profile found for \"" ++ symbol ++ "\"."), 1)
          else
            (ok (String.intercalate "\n"
              [profile.name ++ " (" ++ profile.ticker ++ ")",
               "Industry: " ++ orNA profile.finnhubIndustry,
               "Exchange: " ++ orNA profile.exchange,
               "Market Cap: $" ++
                 formatLargeNumber (profile.marketCapitalization * 1000000),
               "Shares Outstanding: " ++
                 formatLargeNumber (profile.shareOutstanding * 1000000),
               "IPO Date: " ++ orNA profile.ipo,
               "Country: " ++ orNA profile.country,
               "Currency: " ++ orNA profile.currency,
               "Website: " ++ orNA profile.weburl]), 1)

-- ── Historical Candles ──

/-- Clamping of the optional days argument: a falsy value (absent or zero)
falls back to 30 before the [1, 365] clamp is applied. -/
def daysClamp (daysArg : Option ℚ) : ℚ :=
  let v := match daysArg with
    | none => 30
    | some x => if x = 0 then 30 else x
  min (max v 1) 365

/-- One OHLCV data point assembled from the parallel arrays at an index. -/
structure CandlePoint where
  t : Int
  o : ℚ
  h : ℚ
  l : ℚ
  c : ℚ
  v : ℚ
  deriving DecidableEq

/-- Math.max over a spread argument list (the empty case is unreachable in
the handler, which has already checked the series is non-empty). -/
def listMax : List ℚ → ℚ
  | [] => 0
  | x :: rest => rest.foldl max x

/-- Math.min over a spread argument list. -/
def listMin : List ℚ → ℚ
  | [] => 0
  | x :: rest => rest.foldl min x

/-- The data point the handler reads at index i of the parallel arrays. -/
def candlePoint (cand : FinnhubCandles) (i : Nat) : CandlePoint :=
  { t := cand.t.getD i 0, o := cand.o.getD i 0, h := cand.h.getD i 0,
    l := cand.l.getD i 0, c := cand.c.getD i 0, v := cand.v.getD i 0 }

/-- The numeric values the stock_candles handler computes from a series. -/
structure CandleStats where
  count : Nat
  latest : ℚ
  earliest : ℚ
  periodReturn : ℚ
  high : ℚ
  low : ℚ
  avgVolume : ℚ
  tail : Nat
  points : List CandlePoint
  deriving DecidableEq

/-- Statistics block of the stock_candles handler, verbatim from the source:
period return from first and last closes, high and low over the whole
series, average volume over the close count, and the final min(5, count)
data points. -/
def candleStats (cand : FinnhubCandles) : CandleStats :=
  let count := cand.c.length
  let latest := cand.c.getD (count - 1) 0
  let earliest := cand.c.getD 0 0
  let tail := min 5 count
  { count := count, latest := latest, earliest := earliest,
    periodReturn := (latest - earliest) / earliest * 100,
    high := listMax cand.h,
    low := listMin cand.l,
    avgVolume := cand.v.foldl (fun a b => a + b) 0 / (count : ℚ),
    tail := tail,
    points := (List.range tail).map
      (fun j => candlePoint cand (count - tail + j)) }

/-- The stock_candles tool handler. The from/to request window only feeds the
fetch URL and is not needed once the fetch outcome is given. -/
def stock_candles (setting : Option String) (symbolArg : String)
    (resolutionArg : Option String) (daysArg : Option ℚ)
    (upstream : Except String FinnhubCandles) : ToolResult × Nat :=
  let symbol := jsToUpper symbolArg
  let resolution := match resolutionArg with
    | none => "D"
    | some r => if r = "" then "D" else r
  let days := daysClamp daysArg
  match getKey setting with
  | Except.error m => (err m, 0)
  | Except.ok _ =>
      match upstream with
      | Except.error m => (err m, 1)
      | Except.ok candles =>
          if candles.s ≠ "ok" ∨ candles.c.length = 0 then
            (err ("No candle data for \"" ++ symbol ++ "\" with resolution " ++
              resolution ++ " over " ++ qToString days ++ " days."), 1)
          else
            let st := candleStats candles
            (ok (String.intercalate "\n"
              ([symbol ++ " — " ++ toString st.count ++ " candles (" ++
                  resolution ++ " resolution, " ++ qToString days ++ " days)",
                "",
                "Latest Close: $" ++ formatCurrency st.latest,
                "Period Start: $" ++ formatCurrency st.earliest,
                "Period Return: " ++
                  (if st.periodReturn ≥ 0 then "+" else "") ++
                  toFixed2 st.periodReturn ++ "%",
                "Period High: $" ++ formatCurrency st.high,
                "Period Low: $" ++ formatCurrency st.low,
                "Avg Volume: " ++
                  formatLargeNumber ((mathRound st.avgVolume : Int) : ℚ),
                "",
                "Last " ++ toString st.tail ++ " data points:"] ++
               st.points.map (fun p =>
                 "  " ++ formatDate p.t ++ ": O $" ++ formatCurrency p.o ++
                 " H $" ++ formatCurrency p.h ++ " L $" ++ formatCurrency p.l ++
                 " C $" ++ formatCurrency p.c ++ " V " ++
                 formatLargeNumber p.v))), 1)

-- ── Market News ──

/-- Clamping of the optional limit argument: a falsy value (absent or zero)
falls back to 5 before the [1, 20] clamp is applied. -/
def limitClamp (limitArg : Option ℚ) : ℚ :=
  let v := match limitArg with
    | none => 5
    | some x => if x = 0 then 5 else x
  min (max v 1) 20

/-- Lines rendered for one news article. -/
def newsArticleLines (article : NewsItem) : List String :=
  [""] ++
  ["[" ++ formatDateTime article.datetime ++ "] " ++ article.headline] ++
  (if article.summary ≠ "" then
      ["  " ++ (if article.summary.length > 200 then
        article.summary.take 200 ++ "..." else article.summary)]
   else []) ++
  ["  Source: " ++ article.source ++ " | " ++ article.url]

/-- The stock_news tool handler. -/
def stock_news (setting : Option String) (symbolArg : Option String)
    (limitArg : Option ℚ) (upstream : Except String (List NewsItem)) :
    ToolResult × Nat :=
  let symbol : Option String := match symbolArg with
    | none => none
    | some s => if s = "" then none else some (jsToUpper s)
  let limit := limitClamp limitArg
  match getKey setting with
  | Except.error m => (err m, 0)
  | Except.ok _ =>
      match upstream with
      | Except.error m => (err m, 1)
      | Except.ok news =>
          if news.length = 0 then
            (ok (match symbol with
              | some s => "No recent news for " ++ s ++ "."
              | none => "No market news available."), 1)
          else
            let articles := news.take (Int.toNat (Int.floor limit))
            let header := match symbol with
              | some s => "News for " ++ s ++ ":"
              | none => "Market News:"
            (ok (String.intercalate "\n"
              ([header] ++ (articles.map newsArticleLines).flatten)), 1)

-- ── Peers / Related Stocks ──

/-- Per-peer output line of stock_peers, with the catch branch rendered as
the placeholder line. -/
def peerLine (peer : String) (r : Except String FinnhubQuote) : String :=
  match r with
  | Except.error _ => peer ++ ": Error"
  | Except.ok q =>
      if q.c = 0 then peer ++ ": No data"
      else
        peer ++ ": $" ++ formatCurrency q.c ++ " (" ++
          (if q.d ≥ 0 then "+" else "") ++ toFixed2 q.dp ++ "%)"

/-- The first eight peers other than the requested symbol itself. -/
def topPeersOf (symbol : String) (peers : List String) : List String :=
  (peers.filter (fun p => p != symbol)).take 8

/-- The input-ordered array Promise.all resolves to in stock_peers: one line
per selected peer. -/
def peersLines (setting : Option String) (symbol : String)
    (peers : List String) (upstream : String → Except String FinnhubQuote) :
    List String :=
  (topPeersOf symbol peers).map
    (fun p => peerLine p (quoteFetch setting upstream p))

/-- The stock_peers tool handler. -/
def stock_peers (setting : Option String) (symbolArg : String)
    (peersUpstream : Except String (List String))
    (quoteUpstream : String → Except String FinnhubQuote) : ToolResult × Nat :=
  let symbol := jsToUpper symbolArg
  match getKey setting with
  | Except.error m => (err m, 0)
  | Except.ok _ =>
      match peersUpstream with
      | Except.error m => (err m, 1)
      | Except.ok peers =>
          if peers.length = 0 then
            (err ("No peers found for \"" ++ symbol ++ "\"."), 1)
          else
            (ok ("Peers of " ++ symbol ++ ":\n" ++
              String.intercalate "\n"
                (peersLines setting symbol peers quoteUpstream)),
             1 + (topPeersOf symbol peers).length)

-- ── Basic Financials ──

/-- Metric record of the stock_metrics payload: a JavaScript record of
number-or-null fields. -/
def MetricsData : Type := List (String × Option ℚ)

/-- Record field access on the metric record; an absent key and a null value
both render as N/A downstream. -/
def lookupMetric (m : MetricsData) (k : String) : Option ℚ :=
  match m.find? (fun p => p.1 == k) with
  | some p => p.2
  | none => none

/-- The fmt helper inside the stock_metrics handler. -/
def fmtMetric (v : Option ℚ) (pre suf : String) : String :=
  match v with
  | some x => pre ++ formatCurrency x ++ suf
  | none => "N/A"

/-- The stock_metrics tool handler. -/
def stock_metrics (setting : Option String) (symbolArg : String)
    (upstream : Except String MetricsData) : ToolResult × Nat :=
  let symbol := jsToUpper symbolArg
  match getKey setting with
  | Except.error m => (err m, 0)
  | Except.ok _ =>
      match upstream with
      | Except.error m => (err m, 1)
      | Except.ok m =>
          if m.length = 0 then
            (err ("No metrics found for \"" ++ symbol ++ "\"."), 1)
          else
            (ok (String.intercalate "\n"
              ["Key Metrics for " ++ symbol ++ ":",
               "",
               "52-Week High: " ++ fmtMetric (lookupMetric m "52WeekHigh") "$" "",
               "52-Week Low: " ++ fmtMetric (lookupMetric m "52WeekLow") "$" "",
               "52-Week Return: " ++
                 fmtMetric (lookupMetric m "52WeekPriceReturnDaily") "" "%",
               "",
               "P/E (TTM): " ++ (match lookupMetric m "peTTM" with
                 | some x => toFixed2 x
                 | none => "N/A"),
               "P/B (Quarterly): " ++ (match lookupMetric m "pbQuarterly" with
                 | some x => toFixed2 x
                 | none => "N/A"),
               "EPS (TTM): " ++ fmtMetric (lookupMetric m "epsTTM") "$" "",
               "",
               "Beta: " ++ (match lookupMetric m "beta" with
                 | some x => toFixed3 x
                 | none => "N/A"),
               "Dividend Yield: " ++
                 (match lookupMetric m "dividendYieldIndicatedAnnual" with
                 | some x => toFixed2 x ++ "%"
                 | none => "N/A"),
               "Dividend Per Share: " ++
                 fmtMetric (lookupMetric m "dividendPerShareAnnual") "$" "",
               "",
               "Market Cap: " ++ (match lookupMetric m "marketCapitalization" with
                 | some x => "$" ++ formatLargeNumber (x * 1000000)
                 | none => "N/A"),
               "Revenue (TTM): " ++ (match lookupMetric m "revenueTTM" with
                 | some x => "$" ++ formatLargeNumber (x * 1000000)
                 | none => "N/A"),
               "Net Income (TTM): " ++ (match lookupMetric m "netIncomeTTM" with
                 | some x => "$" ++ formatLargeNumber (x * 1000000)
                 | none => "N/A"),
               "ROE (TTM): " ++ (match lookupMetric m "roeTTM" with
                 | some x => toFixed2 x ++ "%"
                 | none => "N/A")]), 1)

-- Promise.all model: an array of pending slots, each filled with its own
-- task result as that task completes, in an arbitrary completion order.

/-- Writing one slot of the result array. -/
def setAt {β : Type} : List β → Nat → β → List β
  | [], _, _ => []
  | _ :: rest, 0, b => b :: rest
  | x :: rest, n + 1, b => x :: setAt rest n b

/-- Settling the Promise.all array: starting from all-pending, the tasks
complete in the given order, each writing its own slot. -/
def settleAll {β : Type} (tasks : List β) (order : List Nat) : List (Option β) :=
  order.foldl (fun acc i => setAt acc i tasks[i]?)
    (List.replicate tasks.length none)

theorem length_setAt {β : Type} (l : List β) (i : Nat) (b : β) :
    (setAt l i b).length = l.length := by
  induction l generalizing i with
  | nil => rfl
  | cons x rest ih =>
      cases i with
      | zero => rfl
      | succ i' => simp [setAt, ih]

theorem getElem_setAt {β : Type} (l : List β) (i : Nat) (b : β) (j : Nat) :
    (setAt l i b)[j]? = if i = j ∧ j < l.length then some b else l[j]? := by
  induction l generalizing i j with
  | nil => simp [setAt]
  | cons x rest ih =>
      cases i with
      | zero =>
          cases j with
          | zero => simp [setAt]
          | succ j' => simp [setAt]
      | succ i' =>
          cases j with
          | zero => simp [setAt]
          | succ j' => simpa [setAt, Nat.succ_lt_succ_iff] using ih i' j'

theorem settle_foldl_getElem {β : Type} (tasks : List β) (order : List Nat)
    (acc : List (Option β)) (j : Nat) :
    (order.foldl (fun a i => setAt a i tasks[i]?) acc)[j]? =
      if j ∈ order ∧ j < acc.length then some tasks[j]? else acc[j]? := by
  induction order generalizing acc with
  | nil => simp
  | cons i rest ih =>
      rw [List.foldl_cons, ih, length_setAt, getElem_setAt]
      by_cases hlen : j < acc.length
      · by_cases hjr : j ∈ rest
        · simp [hjr, hlen]
        · by_cases hji : i = j
          · subst hji
            simp [hjr, hlen]
          · have hij : ¬ (j = i) := fun h => hji h.symm
            simp [hjr, hlen, hji, hij]
      · simp [hlen]

/-- Promise.all determinism: whenever every task index appears in the
completion order, the settled array is the input-ordered array of results,
independently of that order. -/
theorem settleAll_complete {β : Type} (tasks : List β) (order : List Nat)
    (hcover : ∀ j, j < tasks.length → j ∈ order) :
    settleAll tasks order = tasks.map some := by
  apply List.ext_getElem?
  intro j
  rw [settleAll, settle_foldl_getElem, List.length_replicate]
  by_cases h : j < tasks.length
  · simp [hcover j h, h]
  · have h1 : tasks[j]? = none := List.getElem?_eq_none (Nat.le_of_not_lt h)
    have h2 : (List.replicate tasks.length (none : Option β))[j]? = none :=
      List.getElem?_eq_none (by simpa using Nat.le_of_not_lt h)
    simp [h, h1, h2]

-- Maximum and minimum of a non-empty spread argument list.

theorem foldl_max_init_le (l : List ℚ) (a : ℚ) : a ≤ l.foldl max a := by
  induction l generalizing a with
  | nil => exact le_refl a
  | cons y rest ih => exact le_trans (le_max_left a y) (ih (max a y))

theorem mem_le_foldl_max (l : List ℚ) (a x : ℚ) (h : x ∈ l) :
    x ≤ l.foldl max a := by
  induction l generalizing a with
  | nil => cases h
  | cons y rest ih =>
      rcases List.mem_cons.mp h with rfl | hm
      · exact le_trans (le_max_right a x) (foldl_max_init_le rest (max a x))
      · exact ih (max a y) hm

theorem foldl_max_mem (l : List ℚ) (a : ℚ) :
    l.foldl max a = a ∨ l.foldl max a ∈ l := by
  induction l generalizing a with
  | nil => exact Or.inl rfl
  | cons y rest ih =>
      rcases ih (max a y) with h | h
      · rcases le_total a y with hay | hay
        · right
          rw [List.foldl_cons, h, max_eq_right hay]
          exact List.mem_cons_self y rest
        · left
          rw [List.foldl_cons, h, max_eq_left hay]
      · right
        rw [List.foldl_cons]
        exact List.mem_cons_of_mem y h

theorem le_foldl_min_init (l : List ℚ) (a : ℚ) : l.foldl min a ≤ a := by
  induction l generalizing a with
  | nil => exact le_refl a
  | cons y rest ih => exact le_trans (ih (min a y)) (min_le_left a y)

theorem foldl_min_le_mem (l : List ℚ) (a x : ℚ) (h : x ∈ l) :
    l.foldl min a ≤ x := by
  induction l generalizing a with
  | nil => cases h
  | cons y rest ih =>
      rcases List.mem_cons.mp h with rfl | hm
      · exact le_trans (le_foldl_min_init rest (min a x)) (min_le_right a x)
      · exact ih (min a y) hm

theorem foldl_min_mem (l : List ℚ) (a : ℚ) :
    l.foldl min a = a ∨ l.foldl min a ∈ l := by
  induction l generalizing a with
  | nil => exact Or.inl rfl
  | cons y rest ih =>
      rcases ih (min a y) with h | h
      · rcases le_total a y with hay | hay
        · left
          rw [List.foldl_cons, h, min_eq_left hay]
        · right
          rw [List.foldl_cons, h, min_eq_right hay]
          exact List.mem_cons_self y rest
      · right
        rw [List.foldl_cons]
        exact List.mem_cons_of_mem y h

theorem listMax_mem (l : List ℚ) (hl : l ≠ []) : listMax l ∈ l := by
  cases l with
  | nil => exact absurd rfl hl
  | cons x rest =>
      rcases foldl_max_mem rest x with h | h
      · rw [listMax, h]
        exact List.mem_cons_self x rest
      · rw [listMax]
        exact List.mem_cons_of_mem x h

theorem le_listMax (l : List ℚ) (x : ℚ) (hx : x ∈ l) : x ≤ listMax l := by
  cases l with
  | nil => cases hx
  | cons y rest =>
      rcases List.mem_cons.mp hx with rfl | hm
      · exact foldl_max_init_le rest x
      · exact mem_le_foldl_max rest y x hm

theorem listMin_mem (l : List ℚ) (hl : l ≠ []) : listMin l ∈ l := by
  cases l with
  | nil => exact absurd rfl hl
  | cons x rest =>
      rcases foldl_min_mem rest x with h | h
      · rw [listMin, h]
        exact List.mem_cons_self x rest
      · rw [listMin]
        exact List.mem_cons_of_mem x h

theorem listMin_le (l : List ℚ) (x : ℚ) (hx : x ∈ l) : listMin l ≤ x := by
  cases l with
  | nil => cases hx
  | cons y rest =>
      rcases List.mem_cons.mp hx with rfl | hm
      · exact le_foldl_min_init rest x
      · exact foldl_min_le_mem rest y x hm

/-- Full series of data points, one per close, read off the parallel arrays:
the reference against which the listed tail of points is compared. -/
def seriesPoints (cand : FinnhubCandles) : List CandlePoint :=
  (List.range cand.c.length).map (candlePoint cand)

/-- C5 counterexample: with the API key absent, stock_quotes on one symbol
returns a success-flagged result whose text is the per-symbol placeholder
line, not an error result carrying the configuration message, because its
getKey call sits inside the per-symbol catch. -/
theorem stock_quotes_missing_key_not_error :
    (stock_quotes none ["aapl"] (fun _ => Except.error "net")).1.isError =
      false ∧
    (stock_quotes none ["aapl"] (fun _ => Except.error "net")).1.text =
      "AAPL: Error fetching" ∧
    (stock_quotes none ["aapl"] (fun _ => Except.error "net")).2 = 0 := by
  refine ⟨rfl, rfl, rfl⟩

/-- C5 (amended): with the API key setting absent, no handler performs any
upstream invocation; every handler except stock_quotes returns the error
result whose text is the configuration message, while stock_quotes returns a
success-flagged result made of one placeholder line per symbol. -/
theorem missing_key_behavior (symbolArg query : String) (symbols : List String)
    (resA : Option String) (daysA limA : Option ℚ) (symOpt : Option String)
    (qU : Except String FinnhubQuote)
    (qOracle : String → Except String FinnhubQuote)
    (sU : Except String (List SearchItem)) (pU : Except String FinnhubProfile)
    (cU : Except String FinnhubCandles) (nU : Except String (List NewsItem))
    (peU : Except String (List String)) (mU : Except String MetricsData) :
    stock_quote none symbolArg qU = (err configMsg, 0) ∧
    stock_search none query sU = (err configMsg, 0) ∧
    stock_company_profile none symbolArg pU = (err configMsg, 0) ∧
    stock_candles none symbolArg resA daysA cU = (err configMsg, 0) ∧
    stock_news none symOpt limA nU = (err configMsg, 0) ∧
    stock_peers none symbolArg peU qOracle = (err configMsg, 0) ∧
    stock_metrics none symbolArg mU = (err configMsg, 0) ∧
    stock_quotes none symbols qOracle =
      (ok (String.intercalate "\n" ((symbols.map jsToUpper).map
        (fun s => s ++ ": Error fetching"))), 0) := by
  refine ⟨rfl, rfl, rfl, rfl, rfl, rfl, rfl, ?_⟩
  simp [stock_quotes, quotesLines, quoteFetch, quoteLine, getKey]

/-- C8 counterexample: a supplied value of zero is falsy in the source, so
the handlers substitute the defaults for it instead of clamping zero up to
the lower bound 1. -/
theorem clamp_zero_counterexample :
    daysClamp (some 0) = 30 ∧ daysClamp (some 0) ≠ min (max (0 : ℚ) 1) 365 ∧
    limitClamp (some 0) = 5 ∧ limitClamp (some 0) ≠ min (max (0 : ℚ) 1) 20 := by
  refine ⟨by decide, by decide, by decide, by decide⟩

/-- C8 (amended): a supplied nonzero days argument is clamped into [1, 365]
and a supplied nonzero limit argument into [1, 20]; an absent argument falls
back to the defaults 30 and 5 (as does a zero argument, which is falsy); in
every case the resulting value lies inside the respective range. -/
theorem clamp_behavior (v w : ℚ) (u1 u2 : Option ℚ) (hv : v ≠ 0) (hw : w ≠ 0) :
    daysClamp (some v) = min (max v 1) 365 ∧
    daysClamp none = 30 ∧
    limitClamp (some w) = min (max w 1) 20 ∧
    limitClamp none = 5 ∧
    1 ≤ daysClamp u1 ∧ daysClamp u1 ≤ 365 ∧
    1 ≤ limitClamp u2 ∧ limitClamp u2 ≤ 20 := by
  have hd : ∀ u : Option ℚ, 1 ≤ daysClamp u ∧ daysClamp u ≤ 365 := by
    intro u
    cases u with
    | none => simp [daysClamp]
    | some x =>
        by_cases hx : x = 0
        · simp [daysClamp, hx]
        · simp [daysClamp, hx]
  have hl : ∀ u : Option ℚ, 1 ≤ limitClamp u ∧ limitClamp u ≤ 20 := by
    intro u
    cases u with
    | none => simp [limitClamp]
    | some x =>
        by_cases hx : x = 0
        · simp [limitClamp, hx]
        · simp [limitClamp, hx]
  exact ⟨by simp [daysClamp, hv], by decide, by simp [limitClamp, hw],
    by decide, (hd u1).1, (hd u1).2, (hl u2).1, (hl u2).2⟩

/-- C8 witness: nonzero arguments are clamped, the zero and absent arguments
fall back to the defaults, and the results stay in range. -/
theorem clamp_behavior_witness :
    (2 : ℚ) ≠ 0 ∧ (25 : ℚ) ≠ 0 ∧
    (daysClamp (some 2) = min (max 2 1) 365 ∧
      daysClamp none = 30 ∧
      limitClamp (some 25) = min (max 25 1) 20 ∧
      limitClamp none = 5 ∧
      1 ≤ daysClamp (some 0) ∧ daysClamp (some 0) ≤ 365 ∧
      1 ≤ limitClamp none ∧ limitClamp none ≤ 20) :=
  ⟨by decide, by decide,
    clamp_behavior 2 25 (some 0) none (by decide) (by decide)⟩

/-- C9 counterexample: on the all-zero quote the handler does return an error
result naming the upper-cased symbol, but its text is not the bare no-data
message: the source appends the retry hint sentence to it. -/
theorem stock_quote_no_data_text_counterexample :
    (stock_quote (some "key") "zzzz" (Except.ok
      { c := 0, d := 0, dp := 0, h := 0, l := 0, o := 0, pc := 0,
        t := 0 })).1.isError = true ∧
    (stock_quote (some "key") "zzzz" (Except.ok
      { c := 0, d := 0, dp := 0, h := 0, l := 0, o := 0, pc := 0,
        t := 0 })).1.text ≠ "No data found for symbol \"ZZZZ\"." := by
  refine ⟨rfl, by decide⟩

/-- C9 (amended): whenever both the current price and the open of the fetched
quote are zero, the quote tool returns an error result whose text is the
no-data message naming the upper-cased symbol followed by the retry hint
sentence, rather than rendering the zero values as a quote. -/
theorem stock_quote_zero_quote_error (k symbolArg : String) (q : FinnhubQuote)
    (hk : k ≠ "") (hc : q.c = 0) (ho : q.o = 0) :
    stock_quote (some k) symbolArg (Except.ok q) =
      (err ("No data found for symbol \"" ++ jsToUpper symbolArg ++
        "\". Check the ticker and try again."), 1) := by
  simp [stock_quote, getKey, hk, hc, ho]

/-- C9 witness: the all-zero quote for "zzzz". -/
theorem stock_quote_zero_quote_error_witness :
    ("key" : String) ≠ "" ∧
    (FinnhubQuote.mk 0 0 0 0 0 0 0 0).c = 0 ∧
    (FinnhubQuote.mk 0 0 0 0 0 0 0 0).o = 0 ∧
    stock_quote (some "key") "zzzz" (Except.ok
        (FinnhubQuote.mk 0 0 0 0 0 0 0 0)) =
      (err "No data found for symbol \"ZZZZ\". Check the ticker and try again.",
        1) :=
  ⟨by decide, rfl, rfl,
    stock_quote_zero_quote_error "key" "zzzz" (FinnhubQuote.mk 0 0 0 0 0 0 0 0)
      (by decide) rfl rfl⟩

/-- C10: an empty news list yields a success-flagged no-news result from the
news tool, while the corresponding empty or unusable payloads of the quote,
search, profile, candles, peers and metrics tools all yield error results. -/
theorem stock_news_empty_success_others_error (k s symbolArg query : String)
    (limA : Option ℚ) (resA : Option String) (daysA : Option ℚ)
    (q : FinnhubQuote) (prof : FinnhubProfile) (cand : FinnhubCandles)
    (qOracle : String → Except String FinnhubQuote)
    (hk : k ≠ "") (hs : s ≠ "") (hc : q.c = 0) (ho : q.o = 0)
    (hname : prof.name = "") (hcand : cand.c = []) :
    (stock_news (some k) (some s) limA (Except.ok [])).1 =
      ok ("No recent news for " ++ jsToUpper s ++ ".") ∧
    (stock_news (some k) (some s) limA (Except.ok [])).1.isError = false ∧
    (stock_news (some k) none limA (Except.ok [])).1 =
      ok "No market news available." ∧
    (stock_quote (some k) symbolArg (Except.ok q)).1.isError = true ∧
    (stock_search (some k) query (Except.ok [])).1.isError = true ∧
    (stock_company_profile (some k) symbolArg
      (Except.ok prof)).1.isError = true ∧
    (stock_candles (some k) symbolArg resA daysA
      (Except.ok cand)).1.isError = true ∧
    (stock_peers (some k) symbolArg (Except.ok []) qOracle).1.isError = true ∧
    (stock_metrics (some k) symbolArg
      (Except.ok ([] : MetricsData))).1.isError = true := by
  refine ⟨?_, ?_, ?_, ?_, ?_, ?_, ?_, ?_, ?_⟩
  · simp [stock_news, getKey, hk, hs]
  · simp [stock_news, getKey, hk, hs, ok]
  · simp [stock_news, getKey, hk]
  · simp [stock_quote, getKey, hk, hc, ho, err]
  · simp [stock_search, getKey, hk, err]
  · simp [stock_company_profile, getKey, hk, hname, err]
  · simp [stock_candles, getKey, hk, hcand, err]
  · simp [stock_peers, getKey, hk, err]
  · simp [stock_metrics, getKey, hk, err, MetricsData]

/-- C10 witness: concrete empty payloads for every tool. -/
theorem stock_news_empty_success_others_error_witness :
    ("key" : String) ≠ "" ∧ ("tsla" : String) ≠ "" ∧
    (FinnhubQuote.mk 0 0 0 0 0 0 0 0).c = 0 ∧
    (FinnhubQuote.mk 0 0 0 0 0 0 0 0).o = 0 ∧
    (FinnhubProfile.mk "" "" "" "" "" "" 0 "" "" 0 "" "").name = "" ∧
    (FinnhubCandles.mk [] [] [] [] "no_data" [] []).c = [] ∧
    ((stock_news (some "key") (some "tsla") none (Except.ok [])).1 =
      ok ("No recent news for " ++ jsToUpper "tsla" ++ ".") ∧
    (stock_news (some "key") (some "tsla") none (Except.ok [])).1.isError =
      false ∧
    (stock_news (some "key") none none (Except.ok [])).1 =
      ok "No market news available." ∧
    (stock_quote (some "key") "x" (Except.ok
      (FinnhubQuote.mk 0 0 0 0 0 0 0 0))).1.isError = true ∧
    (stock_search (some "key") "q" (Except.ok [])).1.isError = true ∧
    (stock_company_profile (some "key") "x" (Except.ok
      (FinnhubProfile.mk "" "" "" "" "" "" 0 "" "" 0 "" ""))).1.isError =
        true ∧
    (stock_candles (some "key") "x" none none (Except.ok
      (FinnhubCandles.mk [] [] [] [] "no_data" [] []))).1.isError = true ∧
    (stock_peers (some "key") "x" (Except.ok [])
      (fun _ => Except.error "net")).1.isError = true ∧
    (stock_metrics (some "key") "x"
      (Except.ok ([] : MetricsData))).1.isError = true) :=
  ⟨by decide, by decide, rfl, rfl, rfl, rfl,
    stock_news_empty_success_others_error "key" "tsla" "x" "q" none none none
      (FinnhubQuote.mk 0 0 0 0 0 0 0 0)
      (FinnhubProfile.mk "" "" "" "" "" "" 0 "" "" 0 "" "")
      (FinnhubCandles.mk [] [] [] [] "no_data" [] [])
      (fun _ => Except.error "net")
      (by decide) (by decide) rfl rfl rfl rfl⟩

/-- C6: the batch tools join their per-symbol fetches into the input-ordered
array whatever the completion order, each output line is determined by the
input symbol at the same position, a failing per-symbol fetch only replaces
its own line with the placeholder, and changing one symbol's outcome leaves
every other line unchanged. -/
theorem batch_order_and_isolation (setting : Option String)
    (symbols peers : List String) (symbolArg k : String)
    (upstream upstream2 : String → Except String FinnhubQuote)
    (order order2 : List Nat) (j j2 : Nat) (u u0 emsg : String)
    (hcover : ∀ i, i < (quotesLines setting symbols upstream).length →
      i ∈ order)
    (hcover2 : ∀ i,
      i < (peersLines setting (jsToUpper symbolArg) peers upstream).length →
      i ∈ order2)
    (herr : upstream u0 = Except.error emsg)
    (hagree : ∀ s, s ≠ u0 → upstream s = upstream2 s)
    (hu : u ≠ u0) (hset : setting = some k) (hk : k ≠ "")
    (hpe : peers.length ≠ 0) :
    settleAll (quotesLines setting symbols upstream) order =
      (quotesLines setting symbols upstream).map some ∧
    (stock_quotes setting symbols upstream).1 =
      ok (String.intercalate "\n" (quotesLines setting symbols upstream)) ∧
    (quotesLines setting symbols upstream).length = symbols.length ∧
    (quotesLines setting symbols upstream)[j]? = (symbols[j]?).map
      (fun s => quoteLine (jsToUpper s)
        (quoteFetch setting upstream (jsToUpper s))) ∧
    quoteLine u0 (quoteFetch setting upstream u0) = u0 ++ ": Error fetching" ∧
    quoteLine u (quoteFetch setting upstream u) =
      quoteLine u (quoteFetch setting upstream2 u) ∧
    settleAll (peersLines setting (jsToUpper symbolArg) peers upstream)
        order2 =
      (peersLines setting (jsToUpper symbolArg) peers upstream).map some ∧
    (stock_peers setting symbolArg (Except.ok peers) upstream).1 =
      ok ("Peers of " ++ jsToUpper symbolArg ++ ":\n" ++
        String.intercalate "\n"
          (peersLines setting (jsToUpper symbolArg) peers upstream)) ∧
    (peersLines setting (jsToUpper symbolArg) peers upstream).length =
      (topPeersOf (jsToUpper symbolArg) peers).length ∧
    (peersLines setting (jsToUpper symbolArg) peers upstream)[j2]? =
      ((topPeersOf (jsToUpper symbolArg) peers)[j2]?).map
        (fun p => peerLine p (quoteFetch setting upstream p)) ∧
    peerLine u0 (quoteFetch setting upstream u0) = u0 ++ ": Error" ∧
    peerLine u (quoteFetch setting upstream u) =
      peerLine u (quoteFetch setting upstream2 u) := by
  refine ⟨settleAll_complete _ order hcover, rfl, by simp [quotesLines], ?_,
    ?_, ?_, settleAll_complete _ order2 hcover2, ?_, by simp [peersLines], ?_,
    ?_, ?_⟩
  · simp only [quotesLines, List.map_map, List.getElem?_map]
    rfl
  · cases hg : getKey setting with
    | error m => simp [quoteLine, quoteFetch, hg]
    | ok kk => simp [quoteLine, quoteFetch, hg, herr]
  · have ha := hagree u hu
    simp [quoteFetch, ha]
  · simp [stock_peers, getKey, hset, hk, hpe]
  · simp [peersLines, List.getElem?_map]
  · cases hg : getKey setting with
    | error m => simp [peerLine, quoteFetch, hg]
    | ok kk => simp [peerLine, quoteFetch, hg, herr]
  · have ha := hagree u hu
    simp [quoteFetch, ha]

/-- Quote payload used by the batch witness. -/
def quoteA : FinnhubQuote :=
  { c := 100, d := 1, dp := 1, h := 0, l := 0, o := 90, pc := 0, t := 0 }

/-- Batch witness oracle: the symbol BAD fails, everything else succeeds. -/
def oracleA : String → Except String FinnhubQuote :=
  fun s => if s = "BAD" then Except.error "boom" else Except.ok quoteA

/-- Batch witness oracle differing from oracleA only at BAD. -/
def oracleB : String → Except String FinnhubQuote :=
  fun s => if s = "BAD" then Except.error "zap" else Except.ok quoteA

/-- C6 witness: a two-symbol batch with one failing symbol, settled in
reversed completion order, plus a three-peer batch. -/
theorem batch_order_and_isolation_witness :
    (∀ i, i < (quotesLines (some "key") ["aapl", "bad"] oracleA).length →
      i ∈ [1, 0]) ∧
    (∀ i, i <
      (peersLines (some "key") (jsToUpper "msft") ["MSFT", "AAPL", "GOOG"]
        oracleA).length → i ∈ [0, 1]) ∧
    oracleA "BAD" = Except.error "boom" ∧
    (∀ s, s ≠ "BAD" → oracleA s = oracleB s) ∧
    ("AAPL" : String) ≠ "BAD" ∧ (some "key" : Option String) = some "key" ∧
    ("key" : String) ≠ "" ∧ (["MSFT", "AAPL", "GOOG"] : List String).length ≠ 0 ∧
    (settleAll (quotesLines (some "key") ["aapl", "bad"] oracleA) [1, 0] =
      (quotesLines (some "key") ["aapl", "bad"] oracleA).map some ∧
    (stock_quotes (some "key") ["aapl", "bad"] oracleA).1 =
      ok (String.intercalate "\n"
        (quotesLines (some "key") ["aapl", "bad"] oracleA)) ∧
    (quotesLines (some "key") ["aapl", "bad"] oracleA).length =
      (["aapl", "bad"] : List String).length ∧
    (quotesLines (some "key") ["aapl", "bad"] oracleA)[0]? =
      ((["aapl", "bad"] : List String)[0]?).map
        (fun s => quoteLine (jsToUpper s)
          (quoteFetch (some "key") oracleA (jsToUpper s))) ∧
    quoteLine "BAD" (quoteFetch (some "key") oracleA "BAD") =
      "BAD" ++ ": Error fetching" ∧
    quoteLine "AAPL" (quoteFetch (some "key") oracleA "AAPL") =
      quoteLine "AAPL" (quoteFetch (some "key") oracleB "AAPL") ∧
    settleAll (peersLines (some "key") (jsToUpper "msft")
      ["MSFT", "AAPL", "GOOG"] oracleA) [0, 1] =
      (peersLines (some "key") (jsToUpper "msft") ["MSFT", "AAPL", "GOOG"]
        oracleA).map some ∧
    (stock_peers (some "key") "msft" (Except.ok ["MSFT", "AAPL", "GOOG"])
      oracleA).1 =
      ok ("Peers of " ++ jsToUpper "msft" ++ ":\n" ++ String.intercalate "\n"
        (peersLines (some "key") (jsToUpper "msft") ["MSFT", "AAPL", "GOOG"]
          oracleA)) ∧
    (peersLines (some "key") (jsToUpper "msft") ["MSFT", "AAPL", "GOOG"]
      oracleA).length =
      (topPeersOf (jsToUpper "msft") ["MSFT", "AAPL", "GOOG"]).length ∧
    (peersLines (some "key") (jsToUpper "msft") ["MSFT", "AAPL", "GOOG"]
      oracleA)[1]? =
      ((topPeersOf (jsToUpper "msft") ["MSFT", "AAPL", "GOOG"])[1]?).map
        (fun p => peerLine p (quoteFetch (some "key") oracleA p)) ∧
    peerLine "BAD" (quoteFetch (some "key") oracleA "BAD") =
      "BAD" ++ ": Error" ∧
    peerLine "AAPL" (quoteFetch (some "key") oracleA "AAPL") =
      peerLine "AAPL" (quoteFetch (some "key") oracleB "AAPL")) := by
  refine ⟨?_, ?_, ?_, ?_, by decide, rfl, by decide, by decide, ?_⟩
  · intro i hi
    have h2 : i < 2 := by simpa [quotesLines] using hi
    interval_cases i <;> decide
  · intro i hi
    have hlen : (peersLines (some "key") (jsToUpper "msft")
        ["MSFT", "AAPL", "GOOG"] oracleA).length = 2 := by decide
    have h2 : i < 2 := hlen ▸ hi
    interval_cases i <;> decide
  · simp [oracleA]
  · intro s h
    simp [oracleA, oracleB, h]
  · exact batch_order_and_isolation (some "key") ["aapl", "bad"]
      ["MSFT", "AAPL", "GOOG"] "msft" "key" oracleA oracleB [1, 0] [0, 1] 0 1
      "AAPL" "BAD" "boom"
      (by
        intro i hi
        have h2 : i < 2 := by simpa [quotesLines] using hi
        interval_cases i <;> decide)
      (by
        intro i hi
        have hlen : (peersLines (some "key") (jsToUpper "msft")
            ["MSFT", "AAPL", "GOOG"] oracleA).length = 2 := by decide
        have h2 : i < 2 := hlen ▸ hi
        interval_cases i <;> decide)
      (by simp [oracleA])
      (by
        intro s h
        simp [oracleA, oracleB, h])
      (by decide) rfl (by decide) (by decide)

-- Helper lemmas for the candle statistics.

theorem getD_zero_head (l : List ℚ) (hne : l ≠ []) : l.getD 0 0 = l.head hne := by
  cases l with
  | nil => exact absurd rfl hne
  | cons a rest => rfl

theorem getD_length_sub_one (l : List ℚ) (hne : l ≠ []) :
    l.getD (l.length - 1) 0 = l.getLast hne := by
  have hlt : l.length - 1 < l.length := by
    cases l with
    | nil => exact absurd rfl hne
    | cons a rest => simp
  rw [List.getD_eq_getElem l 0 hlt, List.getLast_eq_getElem]

theorem foldl_add_eq_sum (l : List ℚ) (a : ℚ) :
    l.foldl (fun p q => p + q) a = a + l.sum := by
  induction l generalizing a with
  | nil => simp
  | cons y rest ih => simp [ih, add_assoc]

theorem range_map_drop {γ : Type} (f : Nat → γ) (count tail : Nat)
    (h : tail ≤ count) :
    (List.range tail).map (fun j => f (count - tail + j)) =
      ((List.range count).map f).drop (count - tail) := by
  apply List.ext_getElem?
  intro j
  rw [List.getElem?_drop]
  by_cases hj : j < tail
  · have hj2 : count - tail + j < count := by omega
    simp [List.getElem?_map, List.getElem?_range, hj, hj2]
  · have hj2 : ¬ (count - tail + j < count) := by omega
    have e1 : (List.range tail)[j]? = none :=
      List.getElem?_eq_none (by simpa using Nat.le_of_not_lt hj)
    have e2 : (List.range count)[count - tail + j]? = none :=
      List.getElem?_eq_none (by simpa using Nat.le_of_not_lt hj2)
    simp [List.getElem?_map, e1, e2]

/-- C7: for a non-empty series with ok status the handler succeeds and its
statistics block reports the period return computed from the first and last
closes, the period high as the maximum over all highs, the period low as the
minimum over all lows, the average volume as the arithmetic mean of the
volumes, and lists exactly the final min(5, length) data points of the
series. -/
theorem stock_candles_stats (k symbolArg : String) (resA : Option String)
    (daysA : Option ℚ) (cand : FinnhubCandles) (x y : ℚ) (hk : k ≠ "")
    (hok : cand.s = "ok") (hne : cand.c ≠ []) (hh : cand.h ≠ [])
    (hl : cand.l ≠ []) (hv : cand.v.length = cand.c.length)
    (hx : x ∈ cand.h) (hy : y ∈ cand.l) :
    (stock_candles (some k) symbolArg resA daysA
      (Except.ok cand)).1.isError = false ∧
    (candleStats cand).periodReturn =
      (cand.c.getLast hne - cand.c.head hne) / cand.c.head hne * 100 ∧
    (candleStats cand).high ∈ cand.h ∧
    x ≤ (candleStats cand).high ∧
    (candleStats cand).low ∈ cand.l ∧
    (candleStats cand).low ≤ y ∧
    (candleStats cand).avgVolume = cand.v.sum / (cand.v.length : ℚ) ∧
    (candleStats cand).points.length = min 5 cand.c.length ∧
    (candleStats cand).points =
      (seriesPoints cand).drop (cand.c.length - min 5 cand.c.length) := by
  have hlen0 : cand.c.length ≠ 0 := by simpa [List.length_eq_zero] using hne
  refine ⟨?_, ?_, listMax_mem cand.h hh, le_listMax cand.h x hx,
    listMin_mem cand.l hl, listMin_le cand.l y hy, ?_, by simp [candleStats],
    ?_⟩
  · simp [stock_candles, getKey, hk, hok, hlen0, ok]
  · show (cand.c.getD (cand.c.length - 1) 0 - cand.c.getD 0 0) /
        cand.c.getD 0 0 * 100 = _
    rw [getD_length_sub_one cand.c hne, getD_zero_head cand.c hne]
  · show cand.v.foldl (fun p q => p + q) 0 / ((cand.c.length : ℚ)) = _
    rw [foldl_add_eq_sum, zero_add, hv]
  · show (List.range (min 5 cand.c.length)).map
        (fun j => candlePoint cand
          (cand.c.length - min 5 cand.c.length + j)) = _
    exact range_map_drop (candlePoint cand) cand.c.length
      (min 5 cand.c.length) (min_le_right 5 cand.c.length)

/-- Candle series used by the statistics witness: six daily points. -/
def candA : FinnhubCandles :=
  { c := [10, 20, 30, 40, 50, 60], h := [11, 21, 31, 41, 51, 61],
    l := [9, 19, 29, 39, 49, 59], o := [10, 20, 30, 40, 50, 60],
    s := "ok", t := [0, 86400, 172800, 259200, 345600, 432000],
    v := [100, 200, 300, 400, 500, 600] }

/-- C7 witness: the six-point series, whose period return is 500 percent,
high 61, low 9, average volume 350, with the last five points listed. -/
theorem stock_candles_stats_witness :
    ("key" : String) ≠ "" ∧ candA.s = "ok" ∧ candA.c ≠ [] ∧ candA.h ≠ [] ∧
    candA.l ≠ [] ∧ candA.v.length = candA.c.length ∧ (61 : ℚ) ∈ candA.h ∧
    (9 : ℚ) ∈ candA.l ∧
    ((stock_candles (some "key") "aapl" none (some 30)
        (Except.ok candA)).1.isError = false ∧
      (candleStats candA).periodReturn = 500 ∧
      (candleStats candA).high ∈ candA.h ∧
      (61 : ℚ) ≤ (candleStats candA).high ∧
      (candleStats candA).low ∈ candA.l ∧
      (candleStats candA).low ≤ 9 ∧
      (candleStats candA).avgVolume = 350 ∧
      (candleStats candA).points.length = 5 ∧
      (candleStats candA).points = (seriesPoints candA).drop 1) := by
  have hco : candA.c ≠ [] := by decide
  have hho : candA.h ≠ [] := by decide
  have hlo : candA.l ≠ [] := by decide
  have h := stock_candles_stats "key" "aapl" none (some 30) candA 61 9
    (by decide) rfl hco hho hlo (by decide) (by decide) (by decide)
  have e1 : candA.c.getLast hco = 60 := rfl
  have e2 : candA.c.head hco = 10 := rfl
  have e3 : (candA.c.getLast hco - candA.c.head hco) / candA.c.head hco *
      100 = 500 := by
    rw [e1, e2]
    norm_num
  have e4 : candA.v.sum / (candA.v.length : ℚ) = 350 := by
    norm_num [candA]
  have e5 : min 5 candA.c.length = 5 := by decide
  exact ⟨by decide, rfl, hco, hho, hlo, by decide, by decide, by decide,
    h.1, h.2.1.trans e3, h.2.2.1, h.2.2.2.1, h.2.2.2.2.1, h.2.2.2.2.2.1,
    h.2.2.2.2.2.2.1.trans e4, h.2.2.2.2.2.2.2.1.trans e5,
    h.2.2.2.2.2.2.2.2⟩

end StockData
